import Mathlib

/-!
# WisprMCP — shallow embedding of the query/aggregation layer

This file embeds, in Lean, the parts of the WisprMCP code base that the
verified claims are about:

* `src/wispr_mcp/core/transcript.py` — `TranscriptEntry` and its derived
  fields (`display_text`, `quality_score`);
* `src/wispr_mcp/core/parser.py` — `WisprParser.get_entries`,
  `search_text`, `get_entry_by_id`, `get_statistics`;
* `src/wispr_mcp/cli/commands/show.py` / `src/wispr_mcp/mcp/tools.py` —
  prefix-based single-record lookup;
* `src/wispr_mcp/utils/date_parser.py` — relative/absolute date parsing;
* `src/wispr_mcp/cli/commands/collect.py` — raw daily word collection;
* `src/wispr_mcp/mcp/server.py` — the JSON-RPC dispatch envelope.

Modelling conventions:

* The SQLite `History` table is a `List HistoryRow`; SQL filtering,
  `ORDER BY timestamp DESC` (SQLite puts NULLs last under DESC), `LIMIT`
  and `OFFSET` are explicit list operations.  SQLite compares the TEXT
  `timestamp` column by raw byte order, which on the ASCII ISO strings the
  store uses is codepoint-lexicographic order; we model it as such.
* Python floats (`duration`, `e2eLatency`, `averageLogProb`) are modelled
  as `ℚ`; the claims settled here involve only exact arithmetic on them.
* Python string truthiness (`None` and `""` are falsy) is modelled by
  `strTruthy`; Python `needle in haystack` by `strContains`.
* Instants (`datetime.now()` and relative-date results) are modelled as
  `Int` seconds; `timedelta(hours=n)` is `n * 3600` seconds, etc.
-/

namespace WisprMCP

/-- Python truthiness of an optional string: `None` and `""` are falsy. -/
def strTruthy : Option String → Bool
  | none => false
  | some s => !s.isEmpty

/-- Python truthiness of an optional integer: `None` and `0` are falsy. -/
def natTruthy : Option Nat → Bool
  | none => false
  | some n => n != 0

/-- Python `needle in haystack` on character lists: the needle occurs as a
contiguous substring (the empty needle always occurs). -/
def listContainsSub (needle : List Char) : List Char → Bool
  | [] => needle.isEmpty
  | c :: t => needle.isPrefixOf (c :: t) || listContainsSub needle t

/-- Python `needle in haystack` on strings. -/
def strContains (haystack needle : String) : Bool :=
  listContainsSub needle.toList haystack.toList

/-- Codepoint-lexicographic strict order on character lists: the order
SQLite's BINARY collation induces on the ASCII timestamp strings. -/
def charListLt : List Char → List Char → Bool
  | [], [] => false
  | [], _ :: _ => true
  | _ :: _, [] => false
  | a :: as, b :: bs => if a < b then true else if a = b then charListLt as bs else false

/-- Strict `<` on strings under SQLite BINARY collation (ASCII data). -/
def strLtB (a b : String) : Bool := charListLt a.toList b.toList

/-- Non-strict `≤` on strings under SQLite BINARY collation (ASCII data). -/
def strLeB (a b : String) : Bool := strLtB a b || a == b

/-- Python `\s` on the ASCII range (`[ \t\n\r\f\v]`). -/
def isPySpace (c : Char) : Bool :=
  c = ' ' || c = '\t' || c = '\n' || c = '\r' || c = '\x0b' || c = '\x0c'

/-- Python `str.strip()` on a character list. -/
def pyStripList (l : List Char) : List Char :=
  ((l.dropWhile isPySpace).reverse.dropWhile isPySpace).reverse

/-- Python `str.lower()` (`Char.toLower` covers the ASCII data in play). -/
def pyLower (l : List Char) : List Char := l.map Char.toLower

/-- Python `str.lower()` on a string. -/
def strToLower (s : String) : String := String.mk (pyLower s.toList)

/-! ## The record model (`transcript.py`) -/

/-- Record `TranscriptEntry` from `core/transcript.py`.  The `timestamp` field keeps
the store's raw text (the Python code parses it to a `datetime`, with
unparsable values degrading to `None`; no claim settled here inspects the
parsed calendar value, so the raw text is carried through unchanged).
`additional_context` keeps the raw JSON text for the same reason. -/
structure TranscriptEntry where
  transcript_id : String
  asr_text : Option String := none
  formatted_text : Option String := none
  edited_text : Option String := none
  timestamp : Option String := none
  app : Option String := none
  url : Option String := none
  duration : Option ℚ := none
  num_words : Option Int := none
  status : Option String := none
  language : Option String := none
  conversation_id : Option String := none
  e2e_latency : Option ℚ := none
  confidence : Option ℚ := none
  is_archived : Bool := false
  additional_context : Option String := none
  deriving Repr, DecidableEq

/-- Property `TranscriptEntry.display_text`: edited → formatted → asr, first truthy
(non-`None`, non-empty) field, else `""`. -/
def TranscriptEntry.displayText (e : TranscriptEntry) : String :=
  if strTruthy e.edited_text then e.edited_text.getD ""
  else if strTruthy e.formatted_text then e.formatted_text.getD ""
  else if strTruthy e.asr_text then e.asr_text.getD ""
  else ""

/-- Python `self.num_words and self.num_words > 0`: `None` and `0` are
falsy, then the comparison. -/
def numWordsPositive : Option Int → Bool
  | none => false
  | some n => n != 0 && decide (0 < n)

/-- Property `TranscriptEntry.quality_score`: `confidence` when set; else `0.8` when
`status == "formatted"` and `num_words` is truthy and `> 0`; else `0.1` when
`status == "empty"` or the display text is falsy; else `0.5`. -/
def TranscriptEntry.qualityScore (e : TranscriptEntry) : ℚ :=
  match e.confidence with
  | some c => c
  | none =>
    if decide (e.status = some "formatted") && numWordsPositive e.num_words then 0.8
    else if decide (e.status = some "empty") || e.displayText.isEmpty then 0.1
    else 0.5

/-! ## The data access layer (`parser.py`) -/

/-- One row of the SQLite `History` table, with the column types the code
reads: TEXT columns as `Option String`, REAL as `Option ℚ`, INTEGER as
`Option Int`. -/
structure HistoryRow where
  transcriptEntityId : String
  asrText : Option String := none
  formattedText : Option String := none
  editedText : Option String := none
  timestamp : Option String := none
  app : Option String := none
  url : Option String := none
  duration : Option ℚ := none
  numWords : Option Int := none
  status : Option String := none
  language : Option String := none
  conversationId : Option String := none
  e2eLatency : Option ℚ := none
  averageLogProb : Option ℚ := none
  isArchived : Option Int := none
  additionalContext : Option String := none
  deriving Repr, DecidableEq

/-- Conversion `WisprParser._row_to_transcript_entry`: field-for-field conversion;
`is_archived = bool(row["isArchived"]) if row["isArchived"] is not None
else False`. -/
def rowToTranscriptEntry (r : HistoryRow) : TranscriptEntry :=
  { transcript_id := r.transcriptEntityId
    asr_text := r.asrText
    formatted_text := r.formattedText
    edited_text := r.editedText
    timestamp := r.timestamp
    app := r.app
    url := r.url
    duration := r.duration
    num_words := r.numWords
    status := r.status
    language := r.language
    conversation_id := r.conversationId
    e2e_latency := r.e2eLatency
    confidence := r.averageLogProb
    is_archived := match r.isArchived with
      | none => false
      | some v => v ≠ 0
    additional_context := r.additionalContext }

/-- The keyword arguments of `WisprParser.get_entries`.  `startDate` /
`endDate` hold `start_date.isoformat()` / `end_date.isoformat()`, the TEXT
values SQLite actually compares against the `timestamp` column. -/
structure EntryFilters where
  limit : Option Nat := none
  offset : Option Nat := none
  startDate : Option String := none
  endDate : Option String := none
  app : Option String := none
  status : Option String := none
  conversationId : Option String := none
  includeArchived : Bool := false

/-- The WHERE clause built by `get_entries`.  String filters are added only
when truthy (Python `if app:` etc.); a date bound adds
`timestamp >= ?/<= ? AND timestamp IS NOT NULL`. -/
def rowPassesFilters (f : EntryFilters) (r : HistoryRow) : Bool :=
  (f.includeArchived || r.isArchived = some 0 || r.isArchived = none) &&
  (match f.startDate with
   | none => true
   | some s => match r.timestamp with
     | none => false
     | some t => strLeB s t) &&
  (match f.endDate with
   | none => true
   | some e => match r.timestamp with
     | none => false
     | some t => strLeB t e) &&
  (if strTruthy f.app then r.app = f.app else true) &&
  (if strTruthy f.status then r.status = f.status else true) &&
  (if strTruthy f.conversationId then r.conversationId = f.conversationId else true)

/-- Comparison for `ORDER BY timestamp DESC`: under SQLite's DESC order NULL
timestamps sort after every timestamped row, and timestamped rows sort by
descending raw text. -/
def tsDescBefore (a b : HistoryRow) : Bool :=
  match a.timestamp, b.timestamp with
  | none, none => true
  | none, some _ => false
  | some _, none => true
  | some x, some y => strLeB y x

/-- Query `WisprParser.get_entries`: filter, sort by timestamp descending, apply
`OFFSET`/`LIMIT` when truthy (Python adds the clauses only `if limit:` /
`if offset:`; SQL applies the offset before the limit), then convert rows.
(SQLite leaves the relative order of equal timestamps unspecified; a stable
sort is one admissible refinement, and no claim depends on tie order.
`OFFSET` without `LIMIT` would be a SQLite syntax error; no claim exercises
that combination, and it is modelled as a plain drop.) -/
def getEntries (db : List HistoryRow) (f : EntryFilters) : List TranscriptEntry :=
  let rows := db.filter (rowPassesFilters f)
  let sorted := rows.insertionSort (fun a b => tsDescBefore a b = true)
  let afterOffset := if natTruthy f.offset then sorted.drop (f.offset.getD 0) else sorted
  let limited := if natTruthy f.limit then afterOffset.take (f.limit.getD 0) else afterOffset
  limited.map rowToTranscriptEntry

/-- The per-entry text test of `WisprParser.search_text`: lower-cased query
occurs in a truthy `asr_text`, `formatted_text` or `edited_text`, each
lower-cased (Python `entry.asr_text and query_lower in entry.asr_text.lower()`;
`Char.toLower` covers the ASCII data the claims use). -/
def entryMatchesQuery (query : String) (e : TranscriptEntry) : Bool :=
  let ql := strToLower query
  (strTruthy e.asr_text && strContains (strToLower (e.asr_text.getD "")) ql) ||
  (strTruthy e.formatted_text && strContains (strToLower (e.formatted_text.getD "")) ql) ||
  (strTruthy e.edited_text && strContains (strToLower (e.edited_text.getD "")) ql)

/-- Search `WisprParser.search_text`: the text match is a post-filter over the
already filtered and limited `get_entries` result. -/
def searchText (db : List HistoryRow) (query : String) (f : EntryFilters) :
    List TranscriptEntry :=
  (getEntries db f).filter (entryMatchesQuery query)

/-- Command `SearchCommand.run` (`cli/commands/search.py`): the entry set produced
by the `search` CLI command.  The `--case-sensitive` flag is consulted only
by `_find_matches` / `_highlight_matches` (display concerns); `run` calls
`parser.search_text` without it, so it does not influence which entries are
returned. -/
def cliSearchRun (_caseSensitive : Bool) (db : List HistoryRow) (query : String)
    (f : EntryFilters) : List TranscriptEntry :=
  searchText db query f

/-- Lookup `WisprParser.get_entry_by_id`: exact match on `transcriptEntityId`, no
archived filter. -/
def getEntryById (db : List HistoryRow) (tid : String) : Option TranscriptEntry :=
  (db.find? (fun r => r.transcriptEntityId = tid)).map rowToTranscriptEntry

/-- Outcome of the single-record lookup: the found entry, an
ambiguous-match report carrying the candidate entries shown to the caller,
or not-found. -/
inductive LookupResult where
  | entry (e : TranscriptEntry)
  | ambiguous (candidates : List TranscriptEntry)
  | notFound
  deriving Repr, DecidableEq

/-- Python `s.startswith(pre)` (character-based). -/
def pyStartswith (s pre : String) : Bool := pre.toList.isPrefixOf s.toList

/-- The prefix-candidate set both lookups use: entries of
`get_entries(limit=1000)` (most recent 1000 non-archived entries) whose id
starts with `tid`. -/
def prefixCandidates (db : List HistoryRow) (tid : String) : List TranscriptEntry :=
  (getEntries db { limit := some 1000 }).filter
    (fun e => pyStartswith e.transcript_id tid)

/-- Tool `WisprTools._get_transcript` (`mcp/tools.py`): exact id match first;
otherwise prefix search over the 1000 most recent non-archived entries;
exactly one candidate is returned, two or more yield the ambiguous error
carrying `matches[:10]`, zero yields not-found. -/
def toolGetTranscript (db : List HistoryRow) (tid : String) : LookupResult :=
  match getEntryById db tid with
  | some e => .entry e
  | none =>
    let cands := prefixCandidates db tid
    if cands.length = 1 then
      match cands with
      | m :: _ => .entry m
      | [] => .notFound
    else if 1 < cands.length then .ambiguous (cands.take 10)
    else .notFound

/-- Command `ShowCommand._find_entry` (`cli/commands/show.py`): same logic, but the
prefix search runs only when `len(transcript_id) < 36`; on an ambiguous
match it prints the first 10 candidates and returns `None` (modelled as
`.ambiguous (matches.take 10)`, the reported candidate list). -/
def showFindEntry (db : List HistoryRow) (tid : String) : LookupResult :=
  match getEntryById db tid with
  | some e => .entry e
  | none =>
    if tid.length < 36 then
      let cands := prefixCandidates db tid
      if cands.length = 1 then
        match cands with
        | m :: _ => .entry m
        | [] => .notFound
      else if 1 < cands.length then .ambiguous (cands.take 10)
      else .notFound
    else .notFound

/-! ## Global statistics (`WisprParser.get_statistics`) -/

/-- Minimum of a list of strings under SQLite BINARY order (`MIN(timestamp)`
over non-NULL values; `none` when the list is empty). -/
def listMinStr : List String → Option String
  | [] => none
  | s :: t =>
    match listMinStr t with
    | none => some s
    | some m => some (if strLtB m s then m else s)

/-- Maximum of a list of strings under SQLite BINARY order. -/
def listMaxStr : List String → Option String
  | [] => none
  | s :: t =>
    match listMaxStr t with
    | none => some s
    | some m => some (if strLtB s m then m else s)

/-- The record `WisprParser.get_statistics` returns.  `statusCount` is the
`GROUP BY status` histogram keyed by the raw column value (the Python dict
then renders the `NULL` group under the key `"unknown"`). -/
structure GlobalStats where
  totalEntries : Nat
  activeEntries : Nat
  archivedEntries : Nat
  totalDuration : ℚ
  totalWords : Int
  avgDuration : ℚ
  avgWords : ℚ
  statusCount : Option String → Nat
  firstEntry : Option String
  lastEntry : Option String

/-- The rows `get_statistics` aggregates duration/words over:
`WHERE duration IS NOT NULL AND numWords IS NOT NULL`. -/
def bothNonNull (db : List HistoryRow) : List HistoryRow :=
  db.filter (fun r => r.duration ≠ none ∧ r.numWords ≠ none)

/-- Aggregate `WisprParser.get_statistics`: total count; active = `isArchived = 0`
(NULL not counted active); archived = total − active; `SUM`/`AVG` of
duration and words over rows where both are non-NULL (SQL `NULL or 0`
degrades empty aggregates to 0); status histogram; `MIN`/`MAX` timestamp
over non-NULL timestamps. -/
def getStatistics (db : List HistoryRow) : GlobalStats :=
  let valid := bothNonNull db
  let active := (db.filter (fun r => r.isArchived = some 0)).length
  let totalDur : ℚ := (valid.map (fun r => r.duration.getD 0)).sum
  let totalW : Int := (valid.map (fun r => r.numWords.getD 0)).sum
  { totalEntries := db.length
    activeEntries := active
    archivedEntries := db.length - active
    totalDuration := totalDur
    totalWords := totalW
    avgDuration := if valid.length = 0 then 0 else totalDur / valid.length
    avgWords := if valid.length = 0 then 0 else (totalW : ℚ) / valid.length
    statusCount := fun s => (db.filter (fun r => r.status = s)).length
    firstEntry := listMinStr (db.filterMap (fun r => r.timestamp))
    lastEntry := listMaxStr (db.filterMap (fun r => r.timestamp)) }

/-! ## Date parsing (`utils/date_parser.py`)

Instants are `Int` seconds; `datetime.now()` is the explicit `now`
parameter captured by the caller. -/

/-- Decimal value of a digit run (`int(match.group(1))`). -/
def digitsToNat (ds : List Char) : Nat :=
  ds.foldl (fun acc c => 10 * acc + (c.toNat - '0'.toNat)) 0

/-- The branch on `match.group(2)` in `parse_relative_date`:
hours → 3600 s, days → 86400 s, weeks → 604800 s, months → 30 days,
years → 365 days (the code's explicit approximations). -/
def relUnitResult (now : Int) (amount : Nat) (unit : String) : Option Int :=
  if unit ∈ ["h", "hour", "hours"] then some (now - amount * 3600)
  else if unit ∈ ["d", "day", "days"] then some (now - amount * 86400)
  else if unit ∈ ["w", "week", "weeks"] then some (now - amount * 604800)
  else if unit ∈ ["m", "month", "months"] then some (now - amount * (30 * 86400))
  else if unit ∈ ["y", "year", "years"] then some (now - amount * (365 * 86400))
  else none

/-- The regex `^(\d+)\s*(h|hour|hours|d|day|days|w|week|weeks|m|month|months|
y|year|years)$` applied to the cleaned string: a leading digit run, optional
whitespace, and a unit word that must exactly fill the remainder. -/
def parseRelCore (now : Int) (cleaned : List Char) : Option Int :=
  let ds := cleaned.takeWhile Char.isDigit
  let rest := cleaned.dropWhile Char.isDigit
  if ds.isEmpty then none
  else relUnitResult now (digitsToNat ds) (String.mk (rest.dropWhile isPySpace))

/-- Function `DateParser.parse_relative_date`: `None` for a falsy input, else the
regex match against the stripped, lower-cased string. -/
def parseRelativeDate (now : Int) (s : String) : Option Int :=
  if s.toList.isEmpty then none
  else parseRelCore now (pyLower (pyStripList s.toList))

/-- One `strptime` directive of the absolute formats:
`%Y` (4 digits), a two-digit field (`%m %d %H %M %S`, 1–2 digits),
`%f` (1–6 digits), or a literal character. -/
inductive FmtTok where
  | year
  | twoDigit
  | frac
  | lit (c : Char)
  deriving Repr, DecidableEq

/-- Consume exactly `n` digits, or fail. -/
def takeDigits : Nat → List Char → Option (List Char)
  | 0, xs => some xs
  | _ + 1, [] => none
  | n + 1, x :: xs => if x.isDigit then takeDigits n xs else none

/-- Whole-string match of a `strptime` format against the input, with the
backtracking the stdlib's regexes perform.  (CPython additionally
range-checks field values, e.g. months ≤ 12; no claim settled here depends
on a value-constrained absolute parse, so only the shape is modelled.) -/
def matchToks : List FmtTok → List Char → Bool
  | [], xs => xs.isEmpty
  | .lit c :: ts, xs =>
    match xs with
    | [] => false
    | x :: rest => x = c && matchToks ts rest
  | .year :: ts, xs => (takeDigits 4 xs).elim false (matchToks ts)
  | .twoDigit :: ts, xs =>
    (takeDigits 2 xs).elim false (matchToks ts) ||
      (takeDigits 1 xs).elim false (matchToks ts)
  | .frac :: ts, xs =>
    (List.range 6).any (fun k => (takeDigits (k + 1) xs).elim false (matchToks ts))

/-- Format `%Y-%m-%d`. -/
def fmtDateToks : List FmtTok :=
  [.year, .lit '-', .twoDigit, .lit '-', .twoDigit]

/-- Format `%H:%M:%S`. -/
def fmtHMSToks : List FmtTok :=
  [.twoDigit, .lit ':', .twoDigit, .lit ':', .twoDigit]

/-- Format `%H:%M`. -/
def fmtHMToks : List FmtTok := [.twoDigit, .lit ':', .twoDigit]

/-- Slash date (`%m/%d/%Y` and `%d/%m/%Y` share one shape). -/
def fmtSlashToks : List FmtTok :=
  [.twoDigit, .lit '/', .twoDigit, .lit '/', .year]

/-- The ordered format list of `parse_absolute_date` (the `%d/%m/%Y`
variants repeat the slash shape, as in the source). -/
def dtFormats : List (List FmtTok) :=
  [ fmtDateToks,
    fmtDateToks ++ [.lit ' '] ++ fmtHMSToks,
    fmtDateToks ++ [.lit ' '] ++ fmtHMToks,
    fmtSlashToks,
    fmtSlashToks ++ [.lit ' '] ++ fmtHMSToks,
    fmtSlashToks ++ [.lit ' '] ++ fmtHMToks,
    fmtSlashToks,
    fmtSlashToks ++ [.lit ' '] ++ fmtHMSToks,
    fmtSlashToks ++ [.lit ' '] ++ fmtHMToks,
    fmtDateToks ++ [.lit 'T'] ++ fmtHMSToks,
    fmtDateToks ++ [.lit 'T'] ++ fmtHMSToks ++ [.lit '.', .frac],
    fmtDateToks ++ [.lit 'T'] ++ fmtHMSToks ++ [.lit 'Z'],
    fmtDateToks ++ [.lit 'T'] ++ fmtHMSToks ++ [.lit '.', .frac, .lit 'Z'] ]

/-- A parsed date: a relative result is a concrete instant; an absolute
result records the matched text (the calendar value of an absolute parse is
never inspected by a claim, so its decoding is not modelled). -/
inductive ParsedDate where
  | rel (instant : Int)
  | abs (text : String)
  deriving Repr, DecidableEq

/-- Function `DateParser.parse_absolute_date`: `None` for falsy input, else the
first format that fully parses the stripped string wins. -/
def parseAbsoluteDate (s : String) : Option ParsedDate :=
  if s.toList.isEmpty then none
  else if dtFormats.any (fun f => matchToks f (pyStripList s.toList)) then
    some (.abs s)
  else none

/-- Function `DateParser.parse_date`: the relative form first (a `datetime` is always
truthy in Python, so any relative hit is returned), the absolute formats
only when it does not match. -/
def parseDate (now : Int) (s : String) : Option ParsedDate :=
  match parseRelativeDate now s with
  | some d => some (.rel d)
  | none => parseAbsoluteDate s

/-! ## Daily word collection (`cli/commands/collect.py`, raw format) -/

/-- Python `str.split()` (split on whitespace runs, dropping empties),
via an accumulator of the current word in reverse. -/
def pySplitAux : List Char → List Char → List (List Char)
  | [], cur => if cur.isEmpty then [] else [cur.reverse]
  | c :: t, cur =>
    if isPySpace c then
      if cur.isEmpty then pySplitAux t [] else cur.reverse :: pySplitAux t []
    else pySplitAux t (c :: cur)

/-- Python `" ".join(text.split())`: whitespace normalisation. -/
def normalizeWs (s : String) : String :=
  String.intercalate " " ((pySplitAux s.toList []).map (fun w => String.mk w))

/-- The chained `replace` calls of the raw format: each of `. , ! ? ( ) ; :`
becomes a space (single-character replacements commute with a per-character
map). -/
def replacePunct (c : Char) : Char :=
  if c ∈ ['.', ',', '!', '?', '(', ')', ';', ':'] then ' ' else c

/-- Python `str.strip()` on a string. -/
def pyStrip (s : String) : String := String.mk (pyStripList s.toList)

/-- Generator `CollectCommand._generate_file_content` in `--format raw` mode: for each
entry of the day group (in listing order), strip the display text, replace
punctuation by spaces, collapse whitespace; keep the line when non-empty;
join the lines with newlines — no headers. -/
def generateRawContent (entries : List TranscriptEntry) : String :=
  let allWords := entries.filterMap (fun e =>
    let text := pyStrip e.displayText
    if text.isEmpty then none
    else
      let words := normalizeWs (String.mk (text.toList.map replacePunct))
      if words.isEmpty then none else some words)
  String.intercalate "\n" allWords

/-! ## JSON-RPC dispatch (`mcp/server.py`)

The server reads newline-delimited JSON from stdin.  `json.loads` itself is
not modelled: `handleLine` receives its outcome (`Except`), and
`handleRequest` the decoded request.  Result payloads are carried as opaque
strings — the claims concern the response envelope (`jsonrpc`, `id`,
error codes), not the serialized tool output. -/

/-- A JSON-RPC request id (absent ids behave like `null`: `request_data.get
("id")` yields `None`, which serializes back to `null`). -/
inductive JId where
  | null
  | num (n : Int)
  | str (s : String)
  deriving Repr, DecidableEq

/-- The `params` of a `tools/call` request: the tool `name` (when present)
and the set of keys present in the `arguments` object.  Python keyword
binding of `self.tools.execute_tool(name, arguments)` depends only on the
keys, so argument values are not carried. -/
structure ToolCallParams where
  name : Option String := none
  argKeys : List String := []
  deriving Repr, DecidableEq

/-- A decoded JSON-RPC request (`method` may be absent). -/
structure Request where
  method : Option String := none
  id : JId := .null
  params : ToolCallParams := {}
  deriving Repr, DecidableEq

/-- A JSON-RPC error object. -/
structure RpcError where
  code : Int
  message : String
  deriving Repr, DecidableEq

/-- A JSON-RPC response envelope as the server builds it: every constructor
in `server.py` sets `"jsonrpc": "2.0"` literally and carries the id. -/
structure RpcResponse where
  jsonrpc : String
  id : JId
  result : Option String := none
  error : Option RpcError := none
  deriving Repr, DecidableEq

/-- Constructor `MCPServer._error_response`. -/
def errorResponse (id : JId) (code : Int) (msg : String) : RpcResponse :=
  { jsonrpc := "2.0", id := id, error := some { code := code, message := msg } }

/-- A success envelope (`{"jsonrpc":"2.0","id":…,"result":…}`); the payload
string stands for the serialized result object. -/
def resultResponse (id : JId) (payload : String) : RpcResponse :=
  { jsonrpc := "2.0", id := id, result := some payload }

/-- Handler `MCPServer._handle_tools_call`: a falsy tool name → `-32602`
`"Missing tool name"`; a tool-execution error (`"error" in result`) →
`-32603`; otherwise the wrapped result. -/
def handleToolsCall (execTool : String → List String → Except String String)
    (id : JId) (p : ToolCallParams) : RpcResponse :=
  if !strTruthy p.name then errorResponse id (-32602) "Missing tool name"
  else
    match execTool (p.name.getD "") p.argKeys with
    | .error e => errorResponse id (-32603) e
    | .ok r => resultResponse id r

/-- Handler `MCPServer.handle_request`: dispatch on `method`; anything else (including
an absent method) → `-32601` "Method not found".  `execTool` stands for
`self.tools.execute_tool`. -/
def handleRequest (execTool : String → List String → Except String String)
    (req : Request) : RpcResponse :=
  match req.method with
  | some "initialize" => resultResponse req.id "initialize-result"
  | some "tools/list" => resultResponse req.id "tools-list-result"
  | some "tools/call" => handleToolsCall execTool req.id req.params
  | some "ping" => resultResponse req.id "ping-result"
  | some m => errorResponse req.id (-32601) ("Method not found: " ++ m)
  | none => errorResponse req.id (-32601) "Method not found: None"

/-- One iteration of `MCPServer.run` past the blank-line check: a
`json.loads` failure → `-32700` parse error with a `null` id; a decoded
request goes to `handle_request`. -/
def handleLine (execTool : String → List String → Except String String)
    (parsed : Except String Request) : RpcResponse :=
  match parsed with
  | .error e => errorResponse .null (-32700) ("Parse error: " ++ e)
  | .ok req => handleRequest execTool req

/-- The keyword signature of each `WisprTools._<tool>` method:
(parameters without a default — required, all accepted parameters).
`none` for an unknown tool name. -/
def toolParams : String → Option (List String × List String)
  | "get_recent_transcripts" => some ([], ["limit", "app", "status", "include_archived"])
  | "list_transcripts" =>
    some ([], ["since", "until", "app", "status", "limit", "include_archived"])
  | "search_transcripts" => some (["query"], ["query", "since", "until", "app", "limit"])
  | "get_transcript" => some (["transcript_id"], ["transcript_id", "include_context"])
  | "get_conversations" => some ([], ["since", "until", "app", "limit"])
  | "get_conversation" => some (["conversation_id"], ["conversation_id", "format"])
  | "get_app_statistics" => some ([], ["limit", "sort_by", "min_entries"])
  | "get_database_statistics" => some ([], ["since", "until", "app"])
  | "export_transcripts" =>
    some ([], ["format", "since", "until", "app", "limit", "group_by_conversation"])
  | "get_dictionary_entries" => some ([], [])
  | _ => none

/-- Dispatch `WisprTools.execute_tool` at the dispatch/binding level: an unknown name
returns the `"Unknown tool"` error dict; calling `self._<tool>(**arguments)`
raises `TypeError` — caught and turned into the `"Tool execution failed"`
error dict — when a required key is missing or an unexpected key is present.
A successful binding is abstracted to a success payload: the claims settled
against this function concern only the dispatch layer's error-code mapping,
which depends on the error/success split, not on the tool bodies. -/
def executeToolKeys (tool : String) (keys : List String) : Except String String :=
  match toolParams tool with
  | none => .error ("Unknown tool: " ++ tool)
  | some (req, allowed) =>
    if req.all (fun k => keys.contains k) && keys.all (fun k => allowed.contains k) then
      .ok "tool-result"
    else .error "Tool execution failed: TypeError"

/-- The served dispatch: `handle_request` over the real `execute_tool`
argument binding. -/
def mcpServerHandle (req : Request) : RpcResponse :=
  handleRequest executeToolKeys req

/-! ## Auxiliary definitions used by the verification -/

/-- The exact-case matching rule the specification claims for
case-sensitive search (written from the spec's words, for comparison with
the code's behaviour): the query occurs verbatim in one of the three truthy
raw text fields. -/
def specExactCaseMatch (query : String) (e : TranscriptEntry) : Bool :=
  (strTruthy e.asr_text && strContains (e.asr_text.getD "") query) ||
  (strTruthy e.formatted_text && strContains (e.formatted_text.getD "") query) ||
  (strTruthy e.edited_text && strContains (e.edited_text.getD "") query)

/-- The decimal digits, i.e. the regex class `\d`. -/
def digitChars : List Char :=
  ['0', '1', '2', '3', '4', '5', '6', '7', '8', '9']

/-- The first character of a unit word is neither a digit nor whitespace —
the shape every unit alternative of the regex has. -/
def headOk (u : String) : Bool :=
  match u.toList.head? with
  | none => true
  | some c => !c.isDigit && !isPySpace c

/-! ## Helper lemmas -/

theorem strTruthy_none_eq : strTruthy none = false := rfl

theorem strTruthy_empty_eq : strTruthy (some "") = false := by decide

theorem strTruthy_some_iff (s : String) : strTruthy (some s) = true ↔ s ≠ "" := by
  simp only [strTruthy, Bool.not_eq_true', ne_eq, ← String.isEmpty_iff]
  cases s.isEmpty <;> simp

theorem numWordsPositive_iff (o : Option Int) :
    numWordsPositive o = true ↔ ∃ n, o = some n ∧ 0 < n := by
  cases o with
  | none => simp [numWordsPositive]
  | some n =>
    simp only [numWordsPositive, Bool.and_eq_true, bne_iff_ne, decide_eq_true_eq,
      Option.some.injEq]
    constructor
    · rintro ⟨-, h⟩
      exact ⟨n, rfl, h⟩
    · rintro ⟨m, rfl, h⟩
      exact ⟨by omega, h⟩

/-- Splitting a list's length into the part satisfying a predicate and the
part falsifying it. -/
theorem length_filter_not {α} (p : α → Bool) (l : List α) :
    (l.filter (fun a => !p a)).length = l.length - (l.filter p).length := by
  induction l with
  | nil => simp
  | cons a t ih =>
    have hle := List.length_filter_le p t
    cases h : p a
    · simp only [List.filter_cons, h, Bool.not_false, if_true, Bool.false_eq_true,
        if_false, List.length_cons, ih]
      omega
    · simp only [List.filter_cons, h, Bool.not_true, if_true, Bool.false_eq_true,
        if_false, List.length_cons, ih]
      omega

theorem mem_of_mem_ite_take {α} {c : Bool} {n : Nat} {l : List α} {a : α}
    (h : a ∈ (if c then l.take n else l)) : a ∈ l := by
  split at h
  · exact List.mem_of_mem_take h
  · exact h

theorem mem_of_mem_ite_drop {α} {c : Bool} {n : Nat} {l : List α} {a : α}
    (h : a ∈ (if c then l.drop n else l)) : a ∈ l := by
  split at h
  · exact List.mem_of_mem_drop h
  · exact h

/-- Every entry `get_entries` returns is the conversion of a stored row
that passes the WHERE clause. -/
theorem exists_row_of_mem_getEntries {db : List HistoryRow} {f : EntryFilters}
    {e : TranscriptEntry} (h : e ∈ getEntries db f) :
    ∃ r, r ∈ db ∧ rowPassesFilters f r = true ∧ e = rowToTranscriptEntry r := by
  simp only [getEntries] at h
  rw [List.mem_map] at h
  obtain ⟨r, hr, rfl⟩ := h
  have h2 := mem_of_mem_ite_drop (mem_of_mem_ite_take hr)
  rw [List.mem_insertionSort, List.mem_filter] at h2
  exact ⟨r, h2.1, h2.2, rfl⟩

/-- Conversely, with untruthy limit and offset every row passing the WHERE
clause appears in the result. -/
theorem mem_getEntries_of_no_limit {db : List HistoryRow} {f : EntryFilters}
    {r : HistoryRow} (hl : natTruthy f.limit = false) (ho : natTruthy f.offset = false)
    (hmem : r ∈ db) (hpass : rowPassesFilters f r = true) :
    rowToTranscriptEntry r ∈ getEntries db f := by
  simp only [getEntries, hl, ho, Bool.false_eq_true, if_false]
  rw [List.mem_map]
  refine ⟨r, ?_, rfl⟩
  rw [List.mem_insertionSort, List.mem_filter]
  exact ⟨hmem, hpass⟩

/-! ## C4 — display text precedence -/

/-- C4: for every transcript entry, the derived display text equals the
edited text if that is non-empty, else the formatted text if non-empty,
else the raw-recognition text if non-empty, else `""`. -/
theorem display_text_precedence (e : TranscriptEntry) :
    (∀ s, e.edited_text = some s → s ≠ "" → e.displayText = s) ∧
    ((e.edited_text = none ∨ e.edited_text = some "") →
      ∀ s, e.formatted_text = some s → s ≠ "" → e.displayText = s) ∧
    ((e.edited_text = none ∨ e.edited_text = some "") →
      (e.formatted_text = none ∨ e.formatted_text = some "") →
      ∀ s, e.asr_text = some s → s ≠ "" → e.displayText = s) ∧
    ((e.edited_text = none ∨ e.edited_text = some "") →
      (e.formatted_text = none ∨ e.formatted_text = some "") →
      (e.asr_text = none ∨ e.asr_text = some "") →
      e.displayText = "") := by
  refine ⟨?_, ?_, ?_, ?_⟩
  · intro s hs hne
    have ht := (strTruthy_some_iff s).2 hne
    simp [TranscriptEntry.displayText, hs, ht]
  · rintro (h | h) s hs hne
    all_goals
      have ht := (strTruthy_some_iff s).2 hne
      simp [TranscriptEntry.displayText, h, hs, ht, strTruthy_none_eq, strTruthy_empty_eq]
  · rintro (h1 | h1) (h2 | h2) s hs hne
    all_goals
      have ht := (strTruthy_some_iff s).2 hne
      simp [TranscriptEntry.displayText, h1, h2, hs, ht, strTruthy_none_eq, strTruthy_empty_eq]
  · rintro (h1 | h1) (h2 | h2) (h3 | h3)
    all_goals
      simp [TranscriptEntry.displayText, h1, h2, h3, strTruthy_none_eq, strTruthy_empty_eq]

/-- C4 witness: an entry with edited and formatted text displays the edited
text. -/
theorem display_text_precedence_witness :
    ({ transcript_id := "w", edited_text := some "E",
       formatted_text := some "F" : TranscriptEntry }).displayText = "E" :=
  (display_text_precedence _).1 "E" rfl (by decide)

/-! ## C5 — quality score -/

/-- C5: quality score equals `confidence` whenever it is set; otherwise
`0.8` when status is `formatted` and the word count is positive, else `0.1`
when status is `empty` or the display text is empty, else `0.5` (the cases
read in order). -/
theorem quality_score_cases (e : TranscriptEntry) :
    (∀ c, e.confidence = some c → e.qualityScore = c) ∧
    (e.confidence = none → e.status = some "formatted" →
      ∀ n, e.num_words = some n → 0 < n → e.qualityScore = 0.8) ∧
    (e.confidence = none →
      ¬(e.status = some "formatted" ∧ ∃ n, e.num_words = some n ∧ 0 < n) →
      (e.status = some "empty" ∨ e.displayText = "") →
      e.qualityScore = 0.1) ∧
    (e.confidence = none →
      ¬(e.status = some "formatted" ∧ ∃ n, e.num_words = some n ∧ 0 < n) →
      ¬(e.status = some "empty" ∨ e.displayText = "") →
      e.qualityScore = 0.5) := by
  refine ⟨?_, ?_, ?_, ?_⟩
  · intro c hc
    simp [TranscriptEntry.qualityScore, hc]
  · intro hc hst n hn hpos
    have hw : numWordsPositive e.num_words = true :=
      (numWordsPositive_iff _).2 ⟨n, hn, hpos⟩
    simp [TranscriptEntry.qualityScore, hc, hst, hw]
  · intro hc hng hcase
    have hw : ¬(decide (e.status = some "formatted") && numWordsPositive e.num_words) = true := by
      simp only [Bool.and_eq_true, decide_eq_true_eq, numWordsPositive_iff]
      rintro ⟨h1, h2⟩
      exact hng ⟨h1, h2⟩
    have hc2 : (decide (e.status = some "empty") || e.displayText.isEmpty) = true := by
      rcases hcase with h | h
      · simp [h]
      · simp [h, String.isEmpty_iff]
    simp [TranscriptEntry.qualityScore, hc, hw, hc2]
  · intro hc hng hcase
    have hw : ¬(decide (e.status = some "formatted") && numWordsPositive e.num_words) = true := by
      simp only [Bool.and_eq_true, decide_eq_true_eq, numWordsPositive_iff]
      rintro ⟨h1, h2⟩
      exact hng ⟨h1, h2⟩
    have hc2 : ¬(decide (e.status = some "empty") || e.displayText.isEmpty) = true := by
      simp only [Bool.or_eq_true, decide_eq_true_eq, String.isEmpty_iff]
      rintro (h | h) <;> exact hcase (by tauto)
    simp [TranscriptEntry.qualityScore, hc, hw, hc2]

/-- C5 witness: with confidence set the score is the confidence itself. -/
theorem quality_score_cases_witness :
    ({ transcript_id := "w", confidence := some (3/4),
       status := some "formatted" : TranscriptEntry }).qualityScore = 3/4 :=
  (quality_score_cases _).1 (3/4) rfl

/-! ## C8 — raw daily collection scenario -/

/-- C8: two same-day entries with display texts `"Hello, world!"` and
`"Testing."` produce exactly `"Hello world\nTesting"` in raw mode —
punctuation replaced by spaces, whitespace collapsed, one line per entry,
no headers. -/
theorem collect_raw_scenario :
    generateRawContent
      [{ transcript_id := "a", asr_text := some "Hello, world!" },
       { transcript_id := "b", asr_text := some "Testing." }] =
      "Hello world\nTesting" := by
  decide

/-! ## C1 — search result soundness -/

/-- C1 counterexample: with case-sensitive search requested, the CLI search
still returns an entry whose fields contain the query only in a different
case — the `--case-sensitive` flag never reaches the entry filter. -/
theorem search_case_sensitive_counterexample :
    cliSearchRun true [{ transcriptEntityId := "id1", asrText := some "HELLO" }]
        "hello" {} =
      [rowToTranscriptEntry { transcriptEntityId := "id1", asrText := some "HELLO" }] ∧
    specExactCaseMatch "hello"
      (rowToTranscriptEntry { transcriptEntityId := "id1", asrText := some "HELLO" }) =
      false := by
  decide

/-- C1 amended: every entry the search command returns (whatever the
case-sensitive flag) contains the query case-insensitively in at least one
of its three truthy raw text fields, and respects the date/app/status
filters it was given. -/
theorem search_results_sound (cs : Bool) (db : List HistoryRow) (q : String)
    (f : EntryFilters) :
    ∀ e ∈ cliSearchRun cs db q f,
      entryMatchesQuery q e = true ∧
      (strTruthy f.app = true → e.app = f.app) ∧
      (strTruthy f.status = true → e.status = f.status) ∧
      (∀ s, f.startDate = some s → ∃ t, e.timestamp = some t ∧ strLeB s t = true) ∧
      (∀ s, f.endDate = some s → ∃ t, e.timestamp = some t ∧ strLeB t s = true) := by
  intro e he
  simp only [cliSearchRun, searchText] at he
  rw [List.mem_filter] at he
  obtain ⟨r, _, hpass, rfl⟩ := exists_row_of_mem_getEntries he.1
  simp only [rowPassesFilters, Bool.and_eq_true] at hpass
  obtain ⟨⟨⟨⟨⟨_, hstart⟩, hend⟩, happ⟩, hstat⟩, -⟩ := hpass
  refine ⟨he.2, ?_, ?_, ?_, ?_⟩
  · intro hta
    rw [if_pos hta, decide_eq_true_eq] at happ
    exact happ
  · intro hts
    rw [if_pos hts, decide_eq_true_eq] at hstat
    exact hstat
  · intro s hs
    rw [hs] at hstart
    cases ht : r.timestamp with
    | none => rw [ht] at hstart; exact absurd hstart (by simp)
    | some t =>
      rw [ht] at hstart
      exact ⟨t, ht, hstart⟩
  · intro s hs
    rw [hs] at hend
    cases ht : r.timestamp with
    | none => rw [ht] at hend; exact absurd hend (by simp)
    | some t =>
      rw [ht] at hend
      exact ⟨t, ht, hend⟩

/-- C1 amended witness: a concrete search whose one result matches
case-insensitively and satisfies the app filter. -/
theorem search_results_sound_witness :
    entryMatchesQuery "hello"
        (rowToTranscriptEntry
          { transcriptEntityId := "id1", asrText := some "say HELLO now",
            app := some "md.obsidian" }) = true ∧
      (rowToTranscriptEntry
          { transcriptEntityId := "id1", asrText := some "say HELLO now",
            app := some "md.obsidian" }).app = some "md.obsidian" := by
  have h := search_results_sound false
    [{ transcriptEntityId := "id1", asrText := some "say HELLO now",
       app := some "md.obsidian" }]
    "hello" { app := some "md.obsidian" }
    (rowToTranscriptEntry
      { transcriptEntityId := "id1", asrText := some "say HELLO now",
        app := some "md.obsidian" })
    (by decide)
  exact ⟨h.1, h.2.1 (by decide)⟩

/-! ## C9 — limit applied before the text match -/

/-- C9: with a truthy limit `L`, `search_text` filters the text match over
the `L` most recent already-filtered entries: the result is exactly the
text-matching members of that window, has at most `L` entries, and never
contains an entry outside the window (even when fewer than `L` matched). -/
theorem search_limit_window (db : List HistoryRow) (q : String) (f : EntryFilters)
    (L : Nat) (hL : f.limit = some L) (hL0 : L ≠ 0) (hoff : f.offset = none) :
    searchText db q f =
      ((getEntries db { f with limit := none }).take L).filter (entryMatchesQuery q) ∧
    (searchText db q f).length ≤ L ∧
    ∀ e, e ∈ searchText db q f → e ∈ (getEntries db { f with limit := none }).take L := by
  have h1 : natTruthy f.limit = true := by
    rw [hL]; simp [natTruthy, hL0]
  have h0 : natTruthy f.offset = false := by rw [hoff]; rfl
  have hkey : getEntries db f = (getEntries db { f with limit := none }).take L := by
    simp only [getEntries, h1, h0, Bool.false_eq_true, if_false, if_true]
    rw [← List.map_take, hL]
    rfl
  refine ⟨?_, ?_, ?_⟩
  · simp only [searchText, hkey]
  · calc (searchText db q f).length
        ≤ (getEntries db f).length := List.length_filter_le _ _
      _ ≤ L := by
          rw [hkey, List.length_take]
          exact Nat.min_le_left _ _
  · intro e he
    simp only [searchText, hkey] at he
    exact (List.mem_filter.1 he).1

/-- C9 witness: with limit 1, a match sitting outside the most-recent
window is not returned even though it matches the text. -/
theorem search_limit_window_witness :
    searchText
        [{ transcriptEntityId := "old", asrText := some "needle",
           timestamp := some "2024-01-01 00:00:00" },
         { transcriptEntityId := "new", asrText := some "hay",
           timestamp := some "2024-06-01 00:00:00" }]
        "needle" { limit := some 1 } = [] := by
  have h := search_limit_window
    [{ transcriptEntityId := "old", asrText := some "needle",
       timestamp := some "2024-01-01 00:00:00" },
     { transcriptEntityId := "new", asrText := some "hay",
       timestamp := some "2024-06-01 00:00:00" }]
    "needle" { limit := some 1 } 1 rfl (by decide) rfl
  rw [h.1]
  decide

/-! ## C10 — NULL archived flag: listed as active, counted as archived -/

/-- C10: a stored row whose `isArchived` column is NULL is returned by the
default (exclude-archived) listing, yet the global statistics do not count
it active — it lands in `archived = total - active`, the count of rows
whose flag differs from 0. -/
theorem null_archived_listed_but_counted_archived (db : List HistoryRow)
    (r : HistoryRow) (hmem : r ∈ db) (hnull : r.isArchived = none) :
    rowToTranscriptEntry r ∈ getEntries db {} ∧
    r ∉ db.filter (fun x => x.isArchived = some 0) ∧
    (getStatistics db).activeEntries = (db.filter (fun x => x.isArchived = some 0)).length ∧
    (getStatistics db).archivedEntries =
      (db.filter (fun x => ¬x.isArchived = some 0)).length ∧
    r ∈ db.filter (fun x => ¬x.isArchived = some 0) := by
  refine ⟨?_, ?_, rfl, ?_, ?_⟩
  · refine mem_getEntries_of_no_limit rfl rfl hmem ?_
    simp [rowPassesFilters, hnull, strTruthy]
  · rw [List.mem_filter]
    simp [hnull]
  · show db.length - _ = _
    simp only [decide_not]
    rw [length_filter_not]
  · rw [List.mem_filter]
    simp [hnull, hmem]

/-- C10 witness: a one-row store with a NULL archived flag — listed by the
default listing, reported as 0 active / 1 archived. -/
theorem null_archived_witness :
    rowToTranscriptEntry ({ transcriptEntityId := "n", isArchived := none } : HistoryRow) ∈
        getEntries [{ transcriptEntityId := "n", isArchived := none }] {} ∧
      (getStatistics [{ transcriptEntityId := "n", isArchived := none }]).activeEntries = 0 ∧
      (getStatistics [{ transcriptEntityId := "n", isArchived := none }]).archivedEntries = 1 := by
  have h := null_archived_listed_but_counted_archived
    [{ transcriptEntityId := "n", isArchived := none }]
    { transcriptEntityId := "n", isArchived := none }
    (by decide) rfl
  exact ⟨h.1, by decide, by decide⟩

/-! ## C2 — prefix id lookup -/

/-- C2 counterexample: exactly one stored record's id starts with `"abc"`,
but the record is archived, so the lookup reports not-found instead of
returning it — the prefix search only scans the most recent 1000
non-archived entries (both the CLI and the MCP tool variant). -/
theorem prefix_lookup_counterexample :
    (([{ transcriptEntityId := "abcdef", isArchived := some 1 }] :
          List HistoryRow).filter
        (fun r => pyStartswith r.transcriptEntityId "abc")).length = 1 ∧
    toolGetTranscript [{ transcriptEntityId := "abcdef", isArchived := some 1 }]
        "abc" = .notFound ∧
    showFindEntry [{ transcriptEntityId := "abcdef", isArchived := some 1 }]
        "abc" = .notFound := by
  decide

/-- C2 amended: on both surfaces the exact full-id match (over all rows,
archived included) is tried first and returns the record; when it fails,
the candidate set is the prefix matches among the 1000 most recent
non-archived entries: exactly one candidate is returned, none reports
not-found, two or more report the ambiguous error carrying the first 10
candidates — never a silent choice.  The MCP tool runs the prefix search
for any input; the CLI `show` command runs it only for inputs shorter than
36 characters and reports not-found for longer non-exact inputs. -/
theorem prefix_lookup_cases (db : List HistoryRow) (tid : String) :
    (∀ e, getEntryById db tid = some e →
      toolGetTranscript db tid = .entry e ∧ showFindEntry db tid = .entry e) ∧
    (getEntryById db tid = none →
      (prefixCandidates db tid = [] → toolGetTranscript db tid = .notFound) ∧
      (∀ e, prefixCandidates db tid = [e] → toolGetTranscript db tid = .entry e) ∧
      (2 ≤ (prefixCandidates db tid).length →
        toolGetTranscript db tid =
          .ambiguous ((prefixCandidates db tid).take 10)) ∧
      (tid.length < 36 →
        (prefixCandidates db tid = [] → showFindEntry db tid = .notFound) ∧
        (∀ e, prefixCandidates db tid = [e] → showFindEntry db tid = .entry e) ∧
        (2 ≤ (prefixCandidates db tid).length →
          showFindEntry db tid =
            .ambiguous ((prefixCandidates db tid).take 10))) ∧
      (36 ≤ tid.length → showFindEntry db tid = .notFound)) := by
  constructor
  · intro e he
    exact ⟨by simp [toolGetTranscript, he], by simp [showFindEntry, he]⟩
  · intro hn
    refine ⟨?_, ?_, ?_, ?_, ?_⟩
    · intro hc
      simp [toolGetTranscript, hn, hc]
    · intro e hc
      simp [toolGetTranscript, hn, hc]
    · intro hc
      have h1 : ¬(prefixCandidates db tid).length = 1 := by omega
      have h2 : 1 < (prefixCandidates db tid).length := by omega
      simp [toolGetTranscript, hn, h1, h2]
    · intro hlen
      refine ⟨?_, ?_, ?_⟩
      · intro hc
        simp [showFindEntry, hn, hlen, hc]
      · intro e hc
        simp [showFindEntry, hn, hlen, hc]
      · intro hc
        have h1 : ¬(prefixCandidates db tid).length = 1 := by omega
        have h2 : 1 < (prefixCandidates db tid).length := by omega
        simp [showFindEntry, hn, hlen, h1, h2]
    · intro hlen
      have hnl : ¬tid.length < 36 := by omega
      simp [showFindEntry, hn, hnl]

/-- C2 amended witness: two stored ids share the 2-character prefix `"ab"`
— both the MCP tool and the CLI `show` lookup report the two candidates,
choosing neither. -/
theorem prefix_lookup_cases_witness :
    toolGetTranscript
        [{ transcriptEntityId := "ab1" }, { transcriptEntityId := "ab2" }] "ab" =
      .ambiguous
        [rowToTranscriptEntry { transcriptEntityId := "ab1" },
         rowToTranscriptEntry { transcriptEntityId := "ab2" }] ∧
    showFindEntry
        [{ transcriptEntityId := "ab1" }, { transcriptEntityId := "ab2" }] "ab" =
      .ambiguous
        [rowToTranscriptEntry { transcriptEntityId := "ab1" },
         rowToTranscriptEntry { transcriptEntityId := "ab2" }] := by
  have h := (prefix_lookup_cases
      [{ transcriptEntityId := "ab1" }, { transcriptEntityId := "ab2" }] "ab").2
    (by decide)
  constructor
  · rw [h.2.2.1 (by decide)]
    decide
  · rw [(h.2.2.2.1 (by decide)).2.2 (by decide)]
    decide

/-! ## C3 — JSON-RPC error codes and response envelope -/

/-- C3 counterexample: a `tools/call` naming `search_transcripts` but
missing its required `query` argument is answered with error code `-32603`
(the tool-execution failure path), not `-32602`. -/
theorem rpc_missing_required_arg_counterexample :
    (mcpServerHandle
        { method := some "tools/call", id := .num 7,
          params := { name := some "search_transcripts", argKeys := [] } }).error.map
        RpcError.code = some (-32603) ∧
    ¬(mcpServerHandle
        { method := some "tools/call", id := .num 7,
          params := { name := some "search_transcripts", argKeys := [] } }).error.map
        RpcError.code = some (-32602) := by
  decide

theorem handleToolsCall_envelope
    (execTool : String → List String → Except String String) (id : JId)
    (p : ToolCallParams) :
    (handleToolsCall execTool id p).jsonrpc = "2.0" ∧
      (handleToolsCall execTool id p).id = id := by
  unfold handleToolsCall
  split
  · exact ⟨rfl, rfl⟩
  · split
    · exact ⟨rfl, rfl⟩
    · exact ⟨rfl, rfl⟩

/-- C3 amended: unknown (or absent) method → `-32601`; an unparsable line →
`-32700` with a null id; a tool-execution failure → `-32603`; a `tools/call`
with a falsy tool name → `-32602` (a missing per-tool required argument
surfaces as `-32603` through the execution-failure path instead); and every
response built by the dispatcher carries `jsonrpc "2.0"` and the request's
id. -/
theorem rpc_dispatch_spec (execTool : String → List String → Except String String) :
    (∀ req : Request, (handleRequest execTool req).jsonrpc = "2.0" ∧
        (handleRequest execTool req).id = req.id) ∧
    (∀ (req : Request) (m : String), req.method = some m →
        m ∉ (["initialize", "tools/list", "tools/call", "ping"] : List String) →
        handleRequest execTool req =
          errorResponse req.id (-32601) ("Method not found: " ++ m)) ∧
    (∀ req : Request, req.method = none →
        handleRequest execTool req =
          errorResponse req.id (-32601) "Method not found: None") ∧
    (∀ msg, handleLine execTool (.error msg) =
        errorResponse .null (-32700) ("Parse error: " ++ msg)) ∧
    (∀ req : Request, req.method = some "tools/call" →
        strTruthy req.params.name = false →
        handleRequest execTool req =
          errorResponse req.id (-32602) "Missing tool name") ∧
    (∀ (req : Request) (msg : String), req.method = some "tools/call" →
        strTruthy req.params.name = true →
        execTool (req.params.name.getD "") req.params.argKeys = .error msg →
        handleRequest execTool req = errorResponse req.id (-32603) msg) := by
  refine ⟨?_, ?_, ?_, ?_, ?_, ?_⟩
  · intro req
    unfold handleRequest
    split
    · exact ⟨rfl, rfl⟩
    · exact ⟨rfl, rfl⟩
    · exact handleToolsCall_envelope execTool req.id req.params
    · exact ⟨rfl, rfl⟩
    · exact ⟨rfl, rfl⟩
    · exact ⟨rfl, rfl⟩
  · rintro ⟨mm, id, p⟩ m hm hnotin
    simp only at hm
    subst hm
    unfold handleRequest
    split <;> simp_all
  · rintro ⟨mm, id, p⟩ hm
    simp only at hm
    subst hm
    rfl
  · intro msg
    rfl
  · rintro ⟨mm, id, p⟩ hm hname
    simp only at hm
    subst hm
    show handleToolsCall execTool id p = _
    simp [handleToolsCall, hname]
  · rintro ⟨mm, id, p⟩ msg hm hname hexec
    simp only at hm
    subst hm
    show handleToolsCall execTool id p = _
    simp [handleToolsCall, hname, hexec]

/-- C3 amended witness: an unknown method on the served dispatch. -/
theorem rpc_dispatch_spec_witness :
    mcpServerHandle { method := some "bogus", id := .num 3 } =
      errorResponse (.num 3) (-32601) "Method not found: bogus" :=
  (rpc_dispatch_spec executeToolKeys).2.1
    { method := some "bogus", id := .num 3 } "bogus" rfl (by decide)

/-! ## C6 — date parsing -/

theorem isDigit_of_mem_digitChars {c : Char} (h : c ∈ digitChars) :
    c.isDigit = true := by
  fin_cases h <;> rfl

theorem isDigit_eq_false_of_isPySpace {c : Char} (h : isPySpace c = true) :
    c.isDigit = false := by
  simp only [isPySpace, Bool.or_eq_true, decide_eq_true_eq] at h
  rcases h with ((((rfl | rfl) | rfl) | rfl) | rfl) | rfl <;> rfl

theorem takeWhile_append_all {p : Char → Bool} :
    ∀ (ds l : List Char), (∀ c ∈ ds, p c = true) →
      (∀ c, l.head? = some c → p c = false) →
      (ds ++ l).takeWhile p = ds ∧ (ds ++ l).dropWhile p = l := by
  intro ds
  induction ds with
  | nil =>
    intro l _ hl
    cases l with
    | nil => simp
    | cons c t =>
      have hc := hl c rfl
      simp [List.takeWhile_cons, List.dropWhile_cons, hc]
  | cons d ds ih =>
    intro l hds hl
    have hd : p d = true := hds d (List.mem_cons_self d ds)
    have := ih l (fun c hc => hds c (List.mem_cons_of_mem d hc)) hl
    simp [List.takeWhile_cons, List.dropWhile_cons, hd, this.1, this.2]

/-- The regex-match core: when the cleaned input splits as digits, optional
whitespace, and a unit word, `parse_relative_date` reaches the unit branch
with the decimal amount. -/
theorem parseRelativeDate_of_split (now : Int) (s : String) (ds ws : List Char)
    (u : String)
    (hsplit : pyLower (pyStripList s.toList) = ds ++ ws ++ u.toList)
    (hne : ds ≠ [])
    (hdig : ∀ c ∈ ds, c ∈ digitChars)
    (hws : ∀ c ∈ ws, isPySpace c = true)
    (hu : headOk u = true) :
    parseRelativeDate now s = relUnitResult now (digitsToNat ds) u := by
  have hu' : ∀ c, u.toList.head? = some c → c.isDigit = false ∧ isPySpace c = false := by
    intro c hc
    unfold headOk at hu
    rw [hc] at hu
    simp only [Bool.and_eq_true, Bool.not_eq_true'] at hu
    exact hu
  have hlne : s.toList ≠ [] := by
    intro hl
    rw [hl] at hsplit
    simp [pyStripList, pyLower] at hsplit
    exact hne hsplit.1
  have hs' : ¬s.toList.isEmpty = true := by
    cases hl : s.toList with
    | nil => exact absurd hl hlne
    | cons a t => simp
  have hdig' : ∀ c ∈ ds, Char.isDigit c = true :=
    fun c hc => isDigit_of_mem_digitChars (hdig c hc)
  have hhead : ∀ c, (ws ++ u.toList).head? = some c → Char.isDigit c = false := by
    cases ws with
    | nil => simpa using fun c hc => (hu' c hc).1
    | cons w wt =>
      intro c hc
      simp only [List.cons_append, List.head?_cons, Option.some.injEq] at hc
      subst hc
      exact isDigit_eq_false_of_isPySpace (hws w (List.mem_cons_self w wt))
  have htw := takeWhile_append_all ds (ws ++ u.toList) hdig' hhead
  have hdrop :=
    (takeWhile_append_all (p := isPySpace) ws u.toList hws
      (fun c hc => (hu' c hc).2)).2
  have hne' : ¬ds.isEmpty = true := by
    cases ds with
    | nil => exact absurd rfl hne
    | cons _ _ => simp
  unfold parseRelativeDate
  rw [if_neg hs', hsplit]
  simp only [parseRelCore]
  rw [List.append_assoc, htw.1, htw.2, hdrop, if_neg hne']
  rfl

/-- C6: any string matching the relative grammar `^\s*(\d+)\s*(unit)\s*$`
(case-insensitive) parses to `now` minus the decimal amount times the unit
— hour = 3600 s, day = 86400 s, week = 604800 s, month = 30 days, year =
365 days; the absolute formats are consulted only when the relative form
does not match; and `"bad"` parses to `none` rather than raising. -/
theorem date_parse_spec :
    (∀ (now : Int) (s : String) (ds ws : List Char) (u : String),
      pyLower (pyStripList s.toList) = ds ++ ws ++ u.toList →
      ds ≠ [] →
      (∀ c ∈ ds, c ∈ digitChars) →
      (∀ c ∈ ws, isPySpace c = true) →
      ((u ∈ (["h", "hour", "hours"] : List String) →
          parseDate now s = some (.rel (now - digitsToNat ds * 3600))) ∧
       (u ∈ (["d", "day", "days"] : List String) →
          parseDate now s = some (.rel (now - digitsToNat ds * 86400))) ∧
       (u ∈ (["w", "week", "weeks"] : List String) →
          parseDate now s = some (.rel (now - digitsToNat ds * 604800))) ∧
       (u ∈ (["m", "month", "months"] : List String) →
          parseDate now s = some (.rel (now - digitsToNat ds * (30 * 86400)))) ∧
       (u ∈ (["y", "year", "years"] : List String) →
          parseDate now s = some (.rel (now - digitsToNat ds * (365 * 86400)))))) ∧
    (∀ now s d, parseRelativeDate now s = some d → parseDate now s = some (.rel d)) ∧
    (∀ now, parseDate now "bad" = none) := by
  refine ⟨?_, ?_, ?_⟩
  · intro now s ds ws u hsplit hne hdig hws
    refine ⟨?_, ?_, ?_, ?_, ?_⟩ <;> intro hu <;> fin_cases hu
    all_goals
      have hr := parseRelativeDate_of_split now s ds ws _ hsplit hne hdig hws (by decide)
      simp only [parseDate, hr]
      unfold relUnitResult
      repeat rw [if_neg (by decide)]
      rw [if_pos (by decide)]
  · intro now s d h
    simp [parseDate, h]
  · intro now
    have hrel : parseRelativeDate now "bad" = none := by
      unfold parseRelativeDate
      rw [if_neg (by decide)]
      have h1 : pyLower (pyStripList ("bad".toList)) = ['b', 'a', 'd'] := by decide
      rw [h1]
      rfl
    have habs : parseAbsoluteDate "bad" = none := by decide
    simp [parseDate, hrel, habs]

/-- C6 witness: `"3d"` parses to `now − 3·86400` seconds and `"bad"` to
`none`, at `now = 1000000`. -/
theorem date_parse_spec_witness :
    parseDate 1000000 "3d" = some (.rel 740800) ∧
    parseDate 1000000 "bad" = none := by
  constructor
  · have h := (date_parse_spec.1 1000000 "3d" ['3'] [] "d"
      (by decide) (by decide) (by decide) (by decide)).2.1 (by decide)
    rw [h]
    decide
  · exact date_parse_spec.2.2 1000000

/-! ## C7 — global statistics -/

theorem charListLt_trans :
    ∀ (a b c : List Char), charListLt a b = true → charListLt b c = true →
      charListLt a c = true := by
  intro a
  induction a with
  | nil =>
    intro b c hab hbc
    cases b with
    | nil => simp [charListLt] at hab
    | cons y ys =>
      cases c with
      | nil => simp [charListLt] at hbc
      | cons z zs => rfl
  | cons x xs ih =>
    intro b c hab hbc
    cases b with
    | nil => simp [charListLt] at hab
    | cons y ys =>
      cases c with
      | nil => simp [charListLt] at hbc
      | cons z zs =>
        simp only [charListLt] at hab hbc ⊢
        split at hab
        · rename_i hxy
          split at hbc
          · rename_i hyz
            rw [if_pos (lt_trans hxy hyz)]
          · split at hbc
            · rename_i hyz
              subst hyz
              rw [if_pos hxy]
            · exact absurd hbc (by simp)
        · split at hab
          · rename_i hxy
            subst hxy
            split at hbc
            · rename_i hxz
              rw [if_pos hxz]
            · split at hbc
              · rename_i hxz
                subst hxz
                rw [if_neg (lt_irrefl x), if_pos rfl]
                exact ih ys zs hab hbc
              · exact absurd hbc (by simp)
          · exact absurd hab (by simp)

theorem charListLt_total (a b : List Char) :
    charListLt a b = true ∨ charListLt b a = true ∨ a = b := by
  induction a generalizing b with
  | nil =>
    cases b with
    | nil => right; right; rfl
    | cons y ys => left; rfl
  | cons x xs ih =>
    cases b with
    | nil => right; left; rfl
    | cons y ys =>
      rcases lt_trichotomy x y with hxy | hxy | hxy
      · left; simp [charListLt, hxy]
      · subst hxy
        rcases ih ys with h | h | h
        · left; simp [charListLt, h]
        · right; left; simp [charListLt, h]
        · right; right; rw [h]
      · right; left; simp [charListLt, hxy]

theorem strLeB_refl (a : String) : strLeB a a = true := by
  simp [strLeB]

theorem strLeB_of_lt {a b : String} (h : strLtB a b = true) : strLeB a b = true := by
  simp [strLeB, h]

theorem str_eq_of_toList_eq {a b : String} (h : a.toList = b.toList) : a = b := by
  cases a
  cases b
  simp only [String.toList] at h
  rw [h]

theorem strLeB_of_not_lt {a b : String} (h : strLtB a b = false) :
    strLeB b a = true := by
  rcases charListLt_total a.toList b.toList with h1 | h1 | h1
  · rw [strLtB] at h
    rw [h1] at h
    exact absurd h (by simp)
  · exact strLeB_of_lt h1
  · have : a = b := str_eq_of_toList_eq h1
    subst this
    exact strLeB_refl a

theorem strLeB_trans {a b c : String} (h1 : strLeB a b = true)
    (h2 : strLeB b c = true) : strLeB a c = true := by
  simp only [strLeB, Bool.or_eq_true, beq_iff_eq] at h1 h2 ⊢
  rcases h1 with h1 | h1
  · rcases h2 with h2 | h2
    · exact Or.inl (charListLt_trans _ _ _ h1 h2)
    · subst h2; exact Or.inl h1
  · subst h1
    exact h2

theorem listMinStr_eq_none_iff (l : List String) : listMinStr l = none ↔ l = [] := by
  cases l with
  | nil => simp [listMinStr]
  | cons s t =>
    simp only [listMinStr]
    cases listMinStr t <;> simp

/-- Lemma for `MIN` over a non-empty list of strings: the result is a member and a
lower bound. -/
theorem listMinStr_spec :
    ∀ (l : List String) (m : String), listMinStr l = some m →
      m ∈ l ∧ ∀ x ∈ l, strLeB m x = true := by
  intro l
  induction l with
  | nil => intro m h; simp [listMinStr] at h
  | cons s t ih =>
    intro m h
    simp only [listMinStr] at h
    cases ht : listMinStr t with
    | none =>
      rw [ht] at h
      simp only [Option.some.injEq] at h
      rw [← h]
      have htnil : t = [] := (listMinStr_eq_none_iff t).1 ht
      subst htnil
      refine ⟨List.mem_cons_self s [], fun x hx => ?_⟩
      rcases List.mem_cons.1 hx with rfl | hx2
      · exact strLeB_refl _
      · simp at hx2
    | some m' =>
      rw [ht] at h
      simp only [Option.some.injEq] at h
      obtain ⟨ih1, ih2⟩ := ih m' ht
      by_cases hlt : strLtB m' s = true
      · rw [if_pos hlt] at h
        rw [← h]
        refine ⟨List.mem_cons_of_mem s ih1, fun x hx => ?_⟩
        rcases List.mem_cons.1 hx with rfl | hx2
        · exact strLeB_of_lt hlt
        · exact ih2 x hx2
      · rw [if_neg hlt] at h
        rw [← h]
        have hltF : strLtB m' s = false := by
          cases hv : strLtB m' s
          · rfl
          · exact absurd hv hlt
        have hsm : strLeB s m' = true := strLeB_of_not_lt hltF
        refine ⟨List.mem_cons_self s t, fun x hx => ?_⟩
        rcases List.mem_cons.1 hx with rfl | hx2
        · exact strLeB_refl _
        · exact strLeB_trans hsm (ih2 x hx2)

theorem listMaxStr_eq_none_iff (l : List String) : listMaxStr l = none ↔ l = [] := by
  cases l with
  | nil => simp [listMaxStr]
  | cons s t =>
    simp only [listMaxStr]
    cases listMaxStr t <;> simp

/-- Lemma for `MAX` over a non-empty list of strings: the result is a member and an
upper bound. -/
theorem listMaxStr_spec :
    ∀ (l : List String) (m : String), listMaxStr l = some m →
      m ∈ l ∧ ∀ x ∈ l, strLeB x m = true := by
  intro l
  induction l with
  | nil => intro m h; simp [listMaxStr] at h
  | cons s t ih =>
    intro m h
    simp only [listMaxStr] at h
    cases ht : listMaxStr t with
    | none =>
      rw [ht] at h
      simp only [Option.some.injEq] at h
      rw [← h]
      have htnil : t = [] := (listMaxStr_eq_none_iff t).1 ht
      subst htnil
      refine ⟨List.mem_cons_self s [], fun x hx => ?_⟩
      rcases List.mem_cons.1 hx with rfl | hx2
      · exact strLeB_refl _
      · simp at hx2
    | some m' =>
      rw [ht] at h
      simp only [Option.some.injEq] at h
      obtain ⟨ih1, ih2⟩ := ih m' ht
      by_cases hlt : strLtB s m' = true
      · rw [if_pos hlt] at h
        rw [← h]
        refine ⟨List.mem_cons_of_mem s ih1, fun x hx => ?_⟩
        rcases List.mem_cons.1 hx with rfl | hx2
        · exact strLeB_of_lt hlt
        · exact ih2 x hx2
      · rw [if_neg hlt] at h
        rw [← h]
        have hltF : strLtB s m' = false := by
          cases hv : strLtB s m'
          · rfl
          · exact absurd hv hlt
        have hsm : strLeB m' s = true := strLeB_of_not_lt hltF
        refine ⟨List.mem_cons_self s t, fun x hx => ?_⟩
        rcases List.mem_cons.1 hx with rfl | hx2
        · exact strLeB_refl _
        · exact strLeB_trans (ih2 x hx2) hsm

/-- C7 counterexample: the reported duration sum is not the sum over all
entries — a row with a duration but a NULL word count contributes nothing,
because the SQL aggregate restricts to rows where both columns are
non-NULL. -/
theorem statistics_sum_counterexample :
    (getStatistics [{ transcriptEntityId := "x", duration := some 5 }]).totalDuration = 0 ∧
    (([{ transcriptEntityId := "x", duration := some 5 }] : List HistoryRow).map
        (fun r => r.duration.getD 0)).sum = 5 := by
  constructor
  · rfl
  · norm_num

/-- C7 amended: the global statistics report the total count, the active
count (`isArchived = 0`), archived = total − active; duration/word sums and
means computed over the rows where both duration and word count are
non-null (empty aggregates degrade to 0); the per-status histogram; and
first/last = least/greatest timestamp among rows with non-null timestamps. -/
theorem statistics_spec (db : List HistoryRow) :
    (getStatistics db).totalEntries = db.length ∧
    (getStatistics db).activeEntries =
      (db.filter (fun r => r.isArchived = some 0)).length ∧
    (getStatistics db).activeEntries + (getStatistics db).archivedEntries = db.length ∧
    (getStatistics db).totalDuration =
      ((bothNonNull db).map (fun r => r.duration.getD 0)).sum ∧
    (getStatistics db).totalWords =
      ((bothNonNull db).map (fun r => r.numWords.getD 0)).sum ∧
    (bothNonNull db ≠ [] →
      (getStatistics db).avgDuration =
        (getStatistics db).totalDuration / (bothNonNull db).length ∧
      (getStatistics db).avgWords =
        ((getStatistics db).totalWords : ℚ) / (bothNonNull db).length) ∧
    (bothNonNull db = [] →
      (getStatistics db).avgDuration = 0 ∧ (getStatistics db).avgWords = 0) ∧
    (∀ st, (getStatistics db).statusCount st =
      (db.filter (fun r => r.status = st)).length) ∧
    (∀ m, (getStatistics db).firstEntry = some m →
      m ∈ db.filterMap (fun r => r.timestamp) ∧
      ∀ t ∈ db.filterMap (fun r => r.timestamp), strLeB m t = true) ∧
    (∀ m, (getStatistics db).lastEntry = some m →
      m ∈ db.filterMap (fun r => r.timestamp) ∧
      ∀ t ∈ db.filterMap (fun r => r.timestamp), strLeB t m = true) := by
  refine ⟨rfl, rfl, ?_, rfl, rfl, ?_, ?_, fun st => rfl, ?_, ?_⟩
  · have hle := List.length_filter_le (fun r => decide (r.isArchived = some 0)) db
    show (db.filter (fun r => r.isArchived = some 0)).length +
        (db.length - (db.filter (fun r => r.isArchived = some 0)).length) = db.length
    omega
  · intro hvne
    have hlen : ¬(bothNonNull db).length = 0 := by
      simpa [List.length_eq_zero] using hvne
    constructor
    · have hform : (getStatistics db).avgDuration =
          if (bothNonNull db).length = 0 then (0 : ℚ)
          else (getStatistics db).totalDuration / (bothNonNull db).length := rfl
      rw [hform, if_neg hlen]
    · have hform : (getStatistics db).avgWords =
          if (bothNonNull db).length = 0 then (0 : ℚ)
          else ((getStatistics db).totalWords : ℚ) / (bothNonNull db).length := rfl
      rw [hform, if_neg hlen]
  · intro hveq
    have hlen : (bothNonNull db).length = 0 := by rw [hveq]; rfl
    constructor
    · have hform : (getStatistics db).avgDuration =
          if (bothNonNull db).length = 0 then (0 : ℚ)
          else (getStatistics db).totalDuration / (bothNonNull db).length := rfl
      rw [hform, if_pos hlen]
    · have hform : (getStatistics db).avgWords =
          if (bothNonNull db).length = 0 then (0 : ℚ)
          else ((getStatistics db).totalWords : ℚ) / (bothNonNull db).length := rfl
      rw [hform, if_pos hlen]
  · intro m hm
    have hm' : listMinStr (db.filterMap (fun r => r.timestamp)) = some m := hm
    exact listMinStr_spec (db.filterMap (fun r => r.timestamp)) m hm'
  · intro m hm
    have hm' : listMaxStr (db.filterMap (fun r => r.timestamp)) = some m := hm
    exact listMaxStr_spec (db.filterMap (fun r => r.timestamp)) m hm'

/-- C7 amended witness: a one-row store where the word count is NULL — the
aggregate set is empty, both means degrade to 0. -/
theorem statistics_spec_witness :
    (getStatistics [{ transcriptEntityId := "x", duration := some 5 }]).avgDuration = 0 :=
  ((statistics_spec [{ transcriptEntityId := "x", duration := some 5 }]
    ).2.2.2.2.2.2.1 (by decide)).1

end WisprMCP
